import Mathlib

/-!
Verification of the MJPEG frame relay in `app.py` (Raspberry Pi camera web
stream).  The relay is the class `StreamingOutput`: a single-slot mailbox
holding the most recent JPEG frame together with a sequence counter, a
producer method `write` and a per-connection reader generator `frames`.
The HTTP layer serializes frames as multipart parts in `stream.gen`, and
`stop_camera` performs best-effort shutdown.

The embedding is shallow: Python byte strings become `List Nat`, the
relay's mutable fields become an explicit `RelayState`, `write` becomes a
state-transformer returning either the new state and return value or the
raised `TypeError`, and one iteration of the `frames` loop (wake-up plus
capture under the lock) becomes `nextCapture`.  Since `write` is the only
mutator and runs under the lock, any interleaved execution is a sequence
of whole pushes; the global state after `k` completed pushes is `stateAt`
of the first `k` pushed frames, and a reader run is a monotone list of
capture instants validated by `validTrace`.
-/

namespace CameraStream

/-- Python byte strings (frames) as lists of byte values. -/
abbrev Bytes := List Nat

/-- Python values that may be handed to `StreamingOutput.write`: the three
bytes-like types accepted by the `isinstance` check, plus representatives
of non-bytes-like payloads. -/
inductive PyVal where
  | bytes (data : Bytes)
  | bytearray (data : Bytes)
  | memoryview (data : Bytes)
  | strVal (s : String)
  | pyNone
  | intVal (n : Int)
deriving DecidableEq, Repr

/-- The `isinstance(b, (bytes, bytearray, memoryview))` test in `write`. -/
def PyVal.isBytesLike : PyVal → Bool
  | .bytes _ => true
  | .bytearray _ => true
  | .memoryview _ => true
  | _ => false

/-- The `bytes(b)` conversion applied by `write` to a bytes-like value:
an immutable snapshot of the buffer contents. -/
def PyVal.toBytes : PyVal → Bytes
  | .bytes d => d
  | .bytearray d => d
  | .memoryview d => d
  | _ => []

/-- The value of `len(b)` for a bytes-like object. -/
def PyVal.pyLen (v : PyVal) : Int := (v.toBytes.length : Int)

/-- The mutable fields of `StreamingOutput`: `_frame` (initially `None`)
and `_seq` (initially `0`).  The condition variable is represented by the
atomicity of the operations below. -/
structure RelayState where
  frame : Option Bytes
  seq : Int
deriving DecidableEq, Repr

/-- State established by `StreamingOutput.__init__`. -/
def initState : RelayState := { frame := none, seq := 0 }

/-- Outcome of a call to `write`: either the updated state together with
the returned `len(b)` — in which case `notify_all` ran — or the raised
`TypeError`, which leaves the state untouched and wakes nobody (the
`isinstance` check precedes the `with self._cond` block). -/
inductive WriteResult where
  | ok (state : RelayState) (ret : Int)
  | typeError
deriving DecidableEq, Repr

/-- `StreamingOutput.write`: reject non-bytes-like input with `TypeError`;
otherwise store `bytes(b)`, increment `_seq`, notify all waiters and
return `len(b)`. -/
def write (s : RelayState) (b : PyVal) : WriteResult :=
  if b.isBytesLike then
    .ok { frame := some b.toBytes, seq := s.seq + 1 } b.pyLen
  else
    .typeError

/-- The relay state after a call to `write` (unchanged when it raised). -/
def stateAfterWrite (s : RelayState) (b : PyVal) : RelayState :=
  match write s b with
  | .ok s' _ => s'
  | .typeError => s

/-- Whether a call to `write` reached `notify_all`. -/
def writeNotifies (s : RelayState) (b : PyVal) : Bool :=
  match write s b with
  | .ok _ _ => true
  | .typeError => false

/-- One iteration of the `frames` generator, evaluated against the relay
state visible to the waiting reader: `wait_for(lambda: self._seq != last)`
lets the reader proceed exactly when `seq ≠ last`, in which case it
captures `(self._frame, self._seq)` under the lock and yields the frame.
`none` means the reader is still blocked in `wait_for`. -/
def nextCapture (s : RelayState) (last : Int) : Option (Option Bytes × Int) :=
  if s.seq ≠ last then some (s.frame, s.seq) else none

/-- Fold a sequence of successful pushes (frames handed to `write` as
`bytes`) over a relay state. -/
def pushAll (s : RelayState) (fs : List Bytes) : RelayState :=
  fs.foldl (fun st f => stateAfterWrite st (.bytes f)) s

/-- Relay state after the first pushes of the run, starting from
`__init__`. -/
def stateAt (fs : List Bytes) : RelayState := pushAll initState fs

/-- What a reader waking at an instant when `k` pushes have completed
captures under the lock: the stored frame and sequence at that instant. -/
def captureAt (fs : List Bytes) (k : Nat) : Option Bytes × Int :=
  ((stateAt (fs.take k)).frame, (stateAt (fs.take k)).seq)

/-- Validity of a reader run against a global history of `total` pushes.
`cursor` is the reader's `last` value, `tprev` the number of pushes
completed at its previous capture.  Each capture instant `k` must not
precede the previous one (pushes only accumulate), must not exceed the
history, and must satisfy the `wait_for` predicate `seq ≠ last`, after
which the cursor becomes `k`. -/
def validTrace (total : Nat) : Int → Nat → List Nat → Bool
  | _, _, [] => true
  | cursor, tprev, k :: ks =>
    decide (tprev ≤ k) && decide (k ≤ total) && decide ((k : Int) ≠ cursor)
      && validTrace total (k : Int) k ks

/-- The three bytes-like Python types accepted by `write`. -/
inductive BufKind where
  | asBytes
  | asBytearray
  | asMemoryview
deriving DecidableEq, Repr

/-- Package buffer contents as a bytes-like Python value of the given type. -/
def mkBuf : BufKind → Bytes → PyVal
  | .asBytes, d => .bytes d
  | .asBytearray, d => .bytearray d
  | .asMemoryview, d => .memoryview d

/-- The relay together with the contents of one caller-owned, possibly
mutable buffer (a `bytearray` or `memoryview` the producer may overwrite
after handing it to `write`). -/
structure World where
  relay : RelayState
  buffer : Bytes
deriving DecidableEq, Repr

/-- The producer calls `write` passing its buffer as a bytes-like value. -/
def pushBuffer (k : BufKind) (w : World) : World :=
  { w with relay := stateAfterWrite w.relay (mkBuf k w.buffer) }

/-- Return value of that `write` call (`none` when it raised). -/
def writeRet (k : BufKind) (w : World) : Option Int :=
  match write w.relay (mkBuf k w.buffer) with
  | .ok _ r => some r
  | .typeError => none

/-- The producer mutates its buffer in place. -/
def setBuffer (d : Bytes) (w : World) : World := { w with buffer := d }

/-- A reader performs one `frames` capture against the relay. -/
def readFrame (w : World) (cursor : Int) : Option (Option Bytes × Int) :=
  nextCapture w.relay cursor

/-- Encode a string literal as the bytes of its characters (all literals
in `app.py` are ASCII, so `Char.toNat` is the byte value). -/
def strBytes (s : String) : Bytes := s.data.map Char.toNat

/-- The boundary marker `b"--frame"` bound in `stream`. -/
def boundary : Bytes := strBytes "--frame"

/-- One multipart body part as built by `stream.gen`: the boundary, the
adjacent header literals, `str(len(frame)).encode()`, the blank line, the
frame bytes and the trailing CRLF, concatenated exactly as in the source. -/
def multipartPart (frame : Bytes) : Bytes :=
  boundary ++
    strBytes "\r\nContent-Type: image/jpeg\r\nCache-Control: no-cache, no-store, must-revalidate\r\nPragma: no-cache\r\nContent-Length: " ++
    strBytes (toString frame.length) ++ strBytes "\r\n\r\n" ++ frame ++ strBytes "\r\n"

/-- CRLF line terminator. -/
def crlf : Bytes := strBytes "\r\n"

/-- Modelled from the spec: the wire format the spec prescribes for one
multipart body part — boundary `--frame` then CRLF, the headers
`Content-Type: image/jpeg`, `Cache-Control: no-cache, no-store,
must-revalidate`, `Pragma: no-cache` and `Content-Length: N` with `N` the
exact byte length of the frame, each CRLF-terminated, then a blank line,
the `N` raw frame bytes, and a trailing CRLF. -/
def specPart (f : Bytes) : Bytes :=
  strBytes "--frame" ++ crlf ++
    strBytes "Content-Type: image/jpeg" ++ crlf ++
    strBytes "Cache-Control: no-cache, no-store, must-revalidate" ++ crlf ++
    strBytes "Pragma: no-cache" ++ crlf ++
    strBytes "Content-Length: " ++ strBytes (toString f.length) ++ crlf ++
    crlf ++ f ++ crlf

/-- A call into the camera library: it may update the camera state or
raise an exception. -/
abbrev CamOp (σ : Type) := σ → Except String σ

/-- The body of one iteration of the loop in `stop_camera`: `try fn()
except Exception: pass` — a raised exception is swallowed and the state
kept. -/
def tryCall {σ : Type} (s : σ) (f : CamOp σ) : Except String σ :=
  match f s with
  | .ok s' => .ok s'
  | .error _ => .ok s

/-- The function `stop_camera`: iterate over the listed camera calls
(`picam2.stop_recording`, `picam2.stop`), each wrapped in the
exception-swallowing body; an error escaping an iteration would propagate
to the caller. -/
def stop_camera {σ : Type} : List (CamOp σ) → σ → Except String σ
  | [], s => .ok s
  | f :: fs, s =>
    match tryCall s f with
    | .ok s' => stop_camera fs s'
    | .error e => .error e

theorem pushAll_append (s : RelayState) (fs : List Bytes) (f : Bytes) :
    pushAll s (fs ++ [f]) = stateAfterWrite (pushAll s fs) (.bytes f) := by
  simp [pushAll, List.foldl_append]

theorem stateAt_spec (fs : List Bytes) :
    stateAt fs = { frame := fs.getLast?, seq := (fs.length : Int) } := by
  induction fs using List.reverseRecOn with
  | nil => rfl
  | append_singleton fs f ih =>
    unfold stateAt at ih ⊢
    rw [pushAll_append, ih]
    simp [stateAfterWrite, write, PyVal.isBytesLike, PyVal.toBytes]

theorem captureAt_spec (fs : List Bytes) (k : Nat) (h : k ≤ fs.length) :
    captureAt fs k = ((fs.take k).getLast?, (k : Int)) := by
  have hmin : min k fs.length = k := min_eq_left h
  simp [captureAt, stateAt_spec, List.length_take, hmin]

theorem take_getLast? (fs : List Bytes) (k : Nat) (h1 : 0 < k) (h2 : k ≤ fs.length) :
    (fs.take k).getLast? = fs[k - 1]? := by
  rw [List.getLast?_eq_getElem?, List.length_take]
  rw [List.getElem?_take]
  have hmin : min k fs.length = k := min_eq_left h2
  rw [hmin]
  simp
  omega

theorem validTrace_le (total : Nat) :
    ∀ (ks : List Nat) (cursor : Int) (tprev : Nat),
      validTrace total cursor tprev ks = true → ∀ k ∈ ks, k ≤ total := by
  intro ks
  induction ks with
  | nil => simp
  | cons k ks ih =>
    intro cursor tprev h k' hk'
    simp only [validTrace, Bool.and_eq_true, decide_eq_true_eq] at h
    obtain ⟨⟨⟨h1, h2⟩, h3⟩, h4⟩ := h
    rcases List.mem_cons.mp hk' with rfl | hk'
    · exact h2
    · exact ih (k : Int) k h4 k' hk'

theorem validTrace_chain (total : Nat) :
    ∀ (ks : List Nat) (t : Nat), validTrace total (t : Int) t ks = true →
      List.Chain (· < ·) t ks := by
  intro ks
  induction ks with
  | nil => intro t _; exact List.Chain.nil
  | cons k ks ih =>
    intro t h
    simp only [validTrace, Bool.and_eq_true, decide_eq_true_eq] at h
    obtain ⟨⟨⟨h1, h2⟩, h3⟩, h4⟩ := h
    have hne : t ≠ k := by
      intro he
      exact h3 (by exact_mod_cast he.symm)
    exact List.Chain.cons (lt_of_le_of_ne h1 hne) (ih k h4)

/-- C1: the spec claims a read started in the initial relay state (no push
yet, `_seq = 0`, `_frame` absent, cursor sentinel `-1`) blocks until a push
occurs.  The code refutes it: the `wait_for` predicate `self._seq != last`
already holds (`0 ≠ -1`), so the very first `frames` iteration does not
block and immediately captures the absent frame (`None`) with sequence
`0` — contradicting the generator's own docstring. -/
theorem initial_read_returns_immediately :
    nextCapture initState (-1) = some (none, 0) ∧ nextCapture initState (-1) ≠ none := by
  constructor
  · decide
  · decide

/-- C2: the sequence counter starts at `0` with no stored frame; every
successful `write` of a bytes-like value atomically stores the pushed
bytes and increments `_seq` by exactly one, so the counter strictly
increases, after `n` successful pushes it equals `n`, and the stored
frame is always the one of the latest push (the one associated with the
current sequence value). -/
theorem sequence_counter_invariant (s : RelayState) (k : BufKind) (f : Bytes)
    (fs : List Bytes) :
    initState.seq = 0 ∧ initState.frame = none ∧
    stateAfterWrite s (mkBuf k f) = { frame := some f, seq := s.seq + 1 } ∧
    s.seq < (stateAfterWrite s (mkBuf k f)).seq ∧
    (stateAt fs).seq = (fs.length : Int) ∧
    (stateAt fs).frame = fs.getLast? := by
  refine ⟨rfl, rfl, ?_, ?_, ?_, ?_⟩
  · cases k <;> simp [stateAfterWrite, write, mkBuf, PyVal.isBytesLike, PyVal.toBytes]
  · cases k <;> simp [stateAfterWrite, write, mkBuf, PyVal.isBytesLike, PyVal.toBytes]
  · simp [stateAt_spec]
  · simp [stateAt_spec]

/-- C3: for a single reader iterating `frames`, the sequence values at
which frames are captured are strictly increasing across successive
yields — the same sequence value is never delivered twice to that reader
and frames are observed in (strictly, hence non-) decreasing sequence
order.  A reader run is any interleaving valid per `validTrace`: capture
instants move forward in time and each wake satisfies the `wait_for`
predicate against the cursor. -/
theorem reader_sequences_strictly_increase (fs : List Bytes) (ks : List Nat)
    (h : validTrace fs.length (-1) 0 ks = true) :
    List.Chain' (· < ·) (ks.map fun k => (captureAt fs k).2) ∧
    List.Pairwise (· ≠ ·) (ks.map fun k => (captureAt fs k).2) := by
  have hle : ∀ k ∈ ks, k ≤ fs.length := validTrace_le fs.length ks (-1) 0 h
  have hmap : ks.map (fun k => (captureAt fs k).2) = ks.map (fun k : Nat => (k : Int)) :=
    List.map_congr_left fun k hk => by rw [captureAt_spec fs k (hle k hk)]
  have hchain : List.Chain' (· < ·) ks := by
    cases ks with
    | nil => exact List.chain'_nil
    | cons k ks' =>
      simp only [validTrace, Bool.and_eq_true, decide_eq_true_eq] at h
      obtain ⟨⟨⟨h1, h2⟩, h3⟩, h4⟩ := h
      exact validTrace_chain fs.length ks' k h4
  have hcast : List.Chain' (fun a b : Nat => (a : Int) < (b : Int)) ks :=
    hchain.imp fun a b hab => by exact_mod_cast hab
  have hc : List.Chain' (· < ·) (ks.map fun k : Nat => (k : Int)) :=
    (List.chain'_map _).mpr hcast
  rw [hmap]
  refine ⟨hc, ?_⟩
  exact (List.chain'_iff_pairwise.mp hc).imp ne_of_lt

/-- Witness for C3 on the concrete history of three pushes with a reader
waking after the first and after the third. -/
theorem reader_sequences_strictly_increase_witness :
    validTrace ([[1], [2], [3]] : List Bytes).length (-1) 0 [1, 3] = true ∧
    (List.Chain' (· < ·) ([1, 3].map fun k => (captureAt [[1], [2], [3]] k).2) ∧
     List.Pairwise (· ≠ ·) ([1, 3].map fun k => (captureAt [[1], [2], [3]] k).2)) :=
  ⟨by decide, reader_sequences_strictly_increase [[1], [2], [3]] [1, 3] (by decide)⟩

/-- C4: a reader waking at an instant when `k` pushes have completed
receives exactly the most recently pushed frame — the frame of push
`k` (index `k - 1`), the `latest_frame` at capture time — never an older
intermediate one; frames pushed while it was blocked are dropped. -/
theorem wake_receives_latest_frame (fs : List Bytes) (k : Nat)
    (hk : 0 < k) (hle : k ≤ fs.length) :
    (captureAt fs k).1 = fs[k - 1]? ∧ (fs[k - 1]?).isSome = true := by
  constructor
  · rw [captureAt_spec fs k hle]
    exact take_getLast? fs k hk hle
  · rw [List.getElem?_eq_getElem (by omega)]
    rfl

/-- Witness for C4: after three pushes a reader that was blocked through
all of them receives the third frame. -/
theorem wake_receives_latest_frame_witness :
    (0 < 3 ∧ 3 ≤ ([[1], [2], [3]] : List Bytes).length) ∧
    ((captureAt [[1], [2], [3]] 3).1 = [[1], [2], [3]][3 - 1]? ∧
     (([[1], [2], [3]] : List Bytes)[3 - 1]?).isSome = true) :=
  ⟨⟨by decide, by decide⟩,
    wake_receives_latest_frame [[1], [2], [3]] 3 (by decide) (by decide)⟩

/-- C5: concrete end-to-end scenario.  From the initial state, push frame
`A`; a client capture with cursor `-1` returns `(A, 1)`.  Push frame `B`;
the same client with cursor `1` returns `(B, 2)`.  A fresh client with
cursor `-1` after both pushes returns `(B, 2)` and never `A`. -/
theorem end_to_end_scenario (A B : Bytes) (hAB : A ≠ B) :
    nextCapture (stateAt [A]) (-1) = some (some A, 1) ∧
    nextCapture (stateAt [A, B]) 1 = some (some B, 2) ∧
    nextCapture (stateAt [A, B]) (-1) = some (some B, 2) ∧
    ∀ r ∈ nextCapture (stateAt [A, B]) (-1), r.1 ≠ some A := by
  have h1 : stateAt [A] = { frame := some A, seq := 1 } := by
    rw [stateAt_spec]; rfl
  have h2 : stateAt [A, B] = { frame := some B, seq := 2 } := by
    rw [stateAt_spec]; rfl
  refine ⟨?_, ?_, ?_, ?_⟩
  · rw [h1]; simp [nextCapture]
  · rw [h2]; simp [nextCapture]
  · rw [h2]; simp [nextCapture]
  · rw [h2]
    intro r hr
    simp [nextCapture] at hr
    subst hr
    simpa using fun he => hAB he.symm

/-- Witness for C5 with the spec's 3-byte JPEG prefix as frame `A` and a
distinct frame `B`. -/
theorem end_to_end_scenario_witness :
    ([255, 216, 255] : Bytes) ≠ [255, 216, 217] ∧
    (nextCapture (stateAt [[255, 216, 255]]) (-1) = some (some [255, 216, 255], 1) ∧
     nextCapture (stateAt [[255, 216, 255], [255, 216, 217]]) 1 =
       some (some [255, 216, 217], 2) ∧
     nextCapture (stateAt [[255, 216, 255], [255, 216, 217]]) (-1) =
       some (some [255, 216, 217], 2) ∧
     ∀ r ∈ nextCapture (stateAt [[255, 216, 255], [255, 216, 217]]) (-1),
       r.1 ≠ some [255, 216, 255]) :=
  ⟨by decide, end_to_end_scenario [255, 216, 255] [255, 216, 217] (by decide)⟩

/-- C6: `write` with any value that is not bytes-like raises the
`TypeError` (the spec's InvalidFrame error) and leaves the relay state
completely unchanged — stored frame and sequence keep their prior values,
`notify_all` is never reached, and every reader, blocked or not, observes
exactly what it observed before the failed call. -/
theorem invalid_frame_rejected (s : RelayState) (b : PyVal)
    (hb : b.isBytesLike = false) :
    write s b = .typeError ∧
    stateAfterWrite s b = s ∧
    writeNotifies s b = false ∧
    ∀ c : Int, nextCapture (stateAfterWrite s b) c = nextCapture s c := by
  have hw : write s b = .typeError := by simp [write, hb]
  refine ⟨hw, ?_, ?_, ?_⟩
  · simp [stateAfterWrite, hw]
  · simp [writeNotifies, hw]
  · intro c; simp [stateAfterWrite, hw]

/-- Witness for C6: pushing Python `None` into the initial relay. -/
theorem invalid_frame_rejected_witness :
    PyVal.isBytesLike .pyNone = false ∧
    (write initState .pyNone = .typeError ∧
     stateAfterWrite initState .pyNone = initState ∧
     writeNotifies initState .pyNone = false ∧
     ∀ c : Int, nextCapture (stateAfterWrite initState .pyNone) c =
       nextCapture initState c) :=
  ⟨by decide, invalid_frame_rejected initState .pyNone (by decide)⟩

/-- C7: a zero-length byte string is accepted by `write` as a successful
push — no `TypeError`, the sequence is incremented and the empty frame
stored with return value `0` — and the multipart part emitted for it
carries the header `Content-Length: 0`, a blank line, a zero-byte body
and the trailing CRLF. -/
theorem empty_frame_accepted (s : RelayState) :
    write s (.bytes []) = .ok { frame := some [], seq := s.seq + 1 } 0 ∧
    multipartPart [] =
      strBytes "--frame\r\nContent-Type: image/jpeg\r\nCache-Control: no-cache, no-store, must-revalidate\r\nPragma: no-cache\r\nContent-Length: 0\r\n\r\n"
        ++ ([] : Bytes) ++ strBytes "\r\n" := by
  constructor
  · rfl
  · rfl

/-- C8: the multipart body part built by `stream.gen` is byte-for-byte
the part prescribed by the spec: boundary `--frame` plus CRLF, the four
CRLF-terminated headers with `Content-Length` equal to the exact byte
length of the frame, a blank line, the raw frame bytes, and a trailing
CRLF. -/
theorem multipart_part_matches_spec (f : Bytes) : multipartPart f = specPart f := by
  have hbig :
      strBytes "\r\nContent-Type: image/jpeg\r\nCache-Control: no-cache, no-store, must-revalidate\r\nPragma: no-cache\r\nContent-Length: " =
      crlf ++ (strBytes "Content-Type: image/jpeg" ++ (crlf ++
        (strBytes "Cache-Control: no-cache, no-store, must-revalidate" ++ (crlf ++
          (strBytes "Pragma: no-cache" ++ (crlf ++ strBytes "Content-Length: ")))))) := by
    decide
  have hbl : strBytes "\r\n\r\n" = crlf ++ crlf := by decide
  simp only [multipartPart, specPart, boundary, crlf, hbig, hbl, List.append_assoc]

/-- Every run of the `stop_camera` loop ends without an escaping
exception, whatever the listed camera calls do. -/
theorem stop_camera_isOk {σ : Type} :
    ∀ (ops : List (CamOp σ)) (s : σ), ∃ s', stop_camera ops s = .ok s' := by
  intro ops
  induction ops with
  | nil => intro s; exact ⟨s, rfl⟩
  | cons f fs ih =>
    intro s
    cases hfs : f s with
    | ok s1 =>
      have h : stop_camera (f :: fs) s = stop_camera fs s1 := by
        simp [stop_camera, tryCall, hfs]
      rw [h]; exact ih s1
    | error e =>
      have h : stop_camera (f :: fs) s = stop_camera fs s := by
        simp [stop_camera, tryCall, hfs]
      rw [h]; exact ih s

/-- C9: `stop_camera` never raises to its caller whatever the prior
camera state and whatever the underlying `stop_recording` and `stop`
calls do — each call runs inside `try/except Exception: pass`, so
redundant or premature stops are no-ops. -/
theorem stop_camera_never_raises {σ : Type} (stopRecording stopFn : CamOp σ)
    (s : σ) : ∃ s', stop_camera [stopRecording, stopFn] s = .ok s' :=
  stop_camera_isOk [stopRecording, stopFn] s

/-- C10: for every bytes-like value (bytes, bytearray or memoryview
wrapping buffer contents `d`), `write` returns `len(d)` and stores the
immutable snapshot `bytes(b)`; mutating the caller's buffer afterwards
changes nothing a reader subsequently receives — the captured frame is
the contents at call time. -/
theorem write_returns_len_and_copies (w : World) (k : BufKind) (d' : Bytes)
    (c : Int) (hc : c ≠ w.relay.seq + 1) :
    writeRet k w = some (w.buffer.length : Int) ∧
    readFrame (setBuffer d' (pushBuffer k w)) c =
      some (some w.buffer, w.relay.seq + 1) ∧
    readFrame (setBuffer d' (pushBuffer k w)) c = readFrame (pushBuffer k w) c := by
  have hne : w.relay.seq + 1 ≠ c := fun he => hc he.symm
  refine ⟨?_, ?_, ?_⟩
  · cases k <;>
      simp [writeRet, write, mkBuf, PyVal.isBytesLike, PyVal.toBytes, PyVal.pyLen]
  · cases k <;>
      simp [readFrame, setBuffer, pushBuffer, stateAfterWrite, write, mkBuf,
        PyVal.isBytesLike, PyVal.toBytes, nextCapture, hne]
  · cases k <;>
      simp [readFrame, setBuffer, pushBuffer]

/-- Witness for C10: a 3-byte bytearray pushed into the initial relay,
then mutated; the reader still receives the original bytes. -/
theorem write_returns_len_and_copies_witness :
    (-1 : Int) ≠ (World.mk initState [1, 2, 3]).relay.seq + 1 ∧
    (writeRet .asBytearray (World.mk initState [1, 2, 3]) =
       some (([1, 2, 3] : Bytes).length : Int) ∧
     readFrame (setBuffer [9, 9, 9] (pushBuffer .asBytearray
         (World.mk initState [1, 2, 3]))) (-1) =
       some (some (World.mk initState [1, 2, 3]).buffer,
         (World.mk initState [1, 2, 3]).relay.seq + 1) ∧
     readFrame (setBuffer [9, 9, 9] (pushBuffer .asBytearray
         (World.mk initState [1, 2, 3]))) (-1) =
       readFrame (pushBuffer .asBytearray (World.mk initState [1, 2, 3])) (-1)) :=
  ⟨by decide,
    write_returns_len_and_copies (World.mk initState [1, 2, 3]) .asBytearray
      [9, 9, 9] (-1) (by decide)⟩

end CameraStream
